import Mathlib

/-
Shallow embedding of the kata-agent OCI helper module (oci.go):
spec persistence (writeSpecToFile), bundle path switching
(changeToBundlePath) and hook discovery (isValidHook / findHooks).

Modelling conventions:
* Go strings are Lean `String`s; a Go `*T` value is `Option T`.
* `path.Join` / `filepath.Join` are modelled without path cleaning
  (the claims never depend on cleaning); `filepath.Dir` drops the last
  path component.
* The filesystem is an explicit state value `FS`: a set of directories,
  a map from file path to content, and the process working directory.
  Environmental failures the claims do not speak about (Getwd failing,
  mkdir/open failing on a healthy local filesystem) are not modelled;
  chdir fails exactly when the target directory does not exist.
* `os.FileInfo` is modelled by the three pieces of metadata isValidHook
  reads: the directory flag, the symlink flag of the mode, and the
  permission bits `mode & os.ModePerm`.
* The JSON encoder (`json.NewEncoder(f).Encode(spec)`) is an external
  structured-encoding capability; it is a parameter `encode`.  The file
  write it performs starts at offset 0 of a handle opened with
  O_WRONLY|O_CREATE (no O_TRUNC), modelled by `writeAt0`.
-/

namespace KataAgent

/-- `ociConfigFile` constant from oci.go. -/
def ociConfigFile : String := "config.json"

/-- `ociConfigBasePath` constant from oci.go. -/
def ociConfigBasePath : String := "/run/libcontainer"

/-- `ociConfigFileMode` constant (0444) from oci.go. -/
def ociConfigFileMode : Nat := 0o444

/-- Join of two path components (Go `path.Join` / `filepath.Join` on Unix,
without the cleaning step, which no claim depends on). -/
def pathJoin (a b : String) : String :=
  if a = "" then b else if b = "" then a else a ++ "/" ++ b

/-- Go `filepath.Dir`: everything before the last path separator
("." when there is none, "/" at the root), without cleaning. -/
def filepathDir (p : String) : String :=
  match (p.splitOn "/").dropLast with
  | [] => "."
  | [""] => "/"
  | parts => String.intercalate "/" parts

/-- The `Root` section of an OCI runtime spec; only `Path` is read here. -/
structure Root where
  path : String
deriving Repr, DecidableEq

/-- The OCI runtime spec (`specs.Spec`); only `Root` is read here. -/
structure Spec where
  root : Option Root
deriving Repr, DecidableEq

/-- `<ociConfigBasePath>/<id>/config.json`, the canonical persisted-spec
path for a container id. -/
def canonicalConfigPath (containerId : String) : String :=
  pathJoin (pathJoin ociConfigBasePath containerId) ociConfigFile

/-- Filesystem state: existing directories, file contents keyed by path,
and the process working directory. -/
structure FS where
  dirs : List String
  files : List (String × String)
  cwd : String
deriving Repr, DecidableEq

/-- `os.Stat` existence check: the path names a file or a directory. -/
def FS.statExists (fs : FS) (p : String) : Bool :=
  fs.files.any (fun e => e.1 == p) || fs.dirs.contains p

/-- Content of the file at `p`, if present. -/
def FS.lookupFile (fs : FS) (p : String) : Option String :=
  (fs.files.find? (fun e => e.1 == p)).map (fun e => e.2)

/-- Replace (or create) the file at `p` with content `c`. -/
def FS.setFile (fs : FS) (p c : String) : FS :=
  { fs with files := (p, c) :: fs.files.filter (fun e => !(e.1 == p)) }

/-- `os.MkdirAll`: record the directory as existing. -/
def FS.mkdirAll (fs : FS) (p : String) : FS :=
  { fs with dirs := p :: fs.dirs }

/-- `os.Chdir`: succeeds exactly when the directory exists. -/
def FS.chdir (fs : FS) (p : String) : Except String FS :=
  if fs.dirs.contains p then Except.ok { fs with cwd := p }
  else Except.error ("chdir " ++ p ++ ": no such file or directory")

/-- A write starting at offset 0 of a file holding `old`, without
truncation: bytes of `old` beyond the written length survive. -/
def writeAt0 (new old : String) : String :=
  new ++ old.drop new.length

/-- `writeSpecToFile` from oci.go: ensure `<base>/<id>` exists, open
`<base>/<id>/config.json` with O_WRONLY|O_CREATE (mode 0444) and encode
the spec into it from offset 0.  `encode` is the structured-encoding
capability (encoding/json). -/
def writeSpecToFile (encode : Option Spec → String) (spec : Option Spec)
    (containerId : String) (fs : FS) : FS :=
  let configJsonDir := pathJoin ociConfigBasePath containerId
  let fs1 := fs.mkdirAll configJsonDir
  let configPath := pathJoin configJsonDir ociConfigFile
  let old := (fs1.lookupFile configPath).getD ""
  fs1.setFile configPath (writeAt0 (encode spec) old)

/-- Result of `changeToBundlePath`: the returned string (the pre-call
working directory), the returned error if any, and the filesystem state
after the call. -/
structure ChdirResult where
  ret : String
  err : Option String
  fs : FS
deriving Repr, DecidableEq

/-- `changeToBundlePath` from oci.go: capture cwd; reject a nil spec,
nil Root or empty Root.Path as "invalid OCI spec"; reject a missing
persisted config.json as "invalid OCI bundle"; otherwise chdir to
`dirname(spec.Root.Path)`.  The captured cwd is returned in every case. -/
def changeToBundlePath (spec : Option Spec) (containerId : String)
    (fs : FS) : ChdirResult :=
  let cwd := fs.cwd
  match spec with
  | none => ⟨cwd, some "invalid OCI spec", fs⟩
  | some s =>
    match s.root with
    | none => ⟨cwd, some "invalid OCI spec", fs⟩
    | some root =>
      if root.path = "" then ⟨cwd, some "invalid OCI spec", fs⟩
      else
        let bundlePath := filepathDir root.path
        let configPath := pathJoin (pathJoin ociConfigBasePath containerId) ociConfigFile
        if fs.statExists configPath then
          match fs.chdir bundlePath with
          | Except.ok fs2 => ⟨cwd, none, fs2⟩
          | Except.error e => ⟨cwd, some e, fs⟩
        else ⟨cwd, some "invalid OCI bundle", fs⟩

/-- Metadata of a directory entry as read by `isValidHook`:
`os.FileInfo`'s name, IsDir flag, the ModeSymlink bit of the mode, and
the permission bits `mode & os.ModePerm`. -/
structure FileInfo where
  name : String
  isDir : Bool
  isSymlink : Bool
  perm : Nat
deriving Repr, DecidableEq

/-- `isValidHook` from oci.go: Go returns `(bool, error)`; the error is
modelled as `Option String` holding the message. -/
def isValidHook (file : FileInfo) : Bool × Option String :=
  if file.isDir then (false, some "is a directory")
  else if file.isSymlink then (false, some "is a symbolic link")
  else if file.perm &&& 0o111 == 0 then (false, some "is not executable")
  else (true, none)

/-- An OCI hook descriptor (`specs.Hook`); only Path and Args are
produced here. -/
structure Hook where
  path : String
  args : List String
deriving Repr, DecidableEq

/-- Events `findHooks` reports to the log sink, in emission order. -/
inductive LogEvent where
  | skipHookType (hookType : String) (err : String)
  | skipHook (name : String) (err : Option String)
  | addHook (name : String) (hookType : String)
  | addedCount (hookType : String) (n : Nat)
deriving Repr, DecidableEq

/-- One iteration of the `findHooks` loop over a directory entry:
a rejected entry is logged and skipped, an accepted one is appended to
the hooks found together with its log event. -/
def hookStep (hooksPath hookType : String)
    (acc : List Hook × List LogEvent) (file : FileInfo) :
    List Hook × List LogEvent :=
  let name := file.name
  let v := isValidHook file
  if v.1 then
    (acc.1 ++ [{ path := pathJoin hooksPath name, args := [name, hookType] }],
     acc.2 ++ [LogEvent.addHook name hookType])
  else
    (acc.1, acc.2 ++ [LogEvent.skipHook name v.2])

/-- Lexicographic order on character lists; on strings this agrees with
Go's byte-wise `<` on their UTF-8 bytes. -/
def nameLtChars : List Char → List Char → Bool
  | [], [] => false
  | [], _ :: _ => true
  | _ :: _, [] => false
  | a :: as, b :: bs =>
    if a < b then true else if b < a then false else nameLtChars as bs

/-- Go's `<` on file names. -/
def nameLt (a b : String) : Bool := nameLtChars a.data b.data

/-- Insert an entry into a by-filename sorted list, before the first
entry whose name is not smaller. -/
def insertByName (f : FileInfo) : List FileInfo → List FileInfo
  | [] => [f]
  | g :: gs => if nameLt g.name f.name then g :: insertByName f gs else f :: g :: gs

/-- Sort directory entries by filename.  `ioutil.ReadDir` sorts with
`list[i].Name() < list[j].Name()`; since the entries of one directory
have pairwise distinct names, any by-name sort yields the same list. -/
def sortByName : List FileInfo → List FileInfo
  | [] => []
  | f :: fs => insertByName f (sortByName fs)

/-- `ioutil.ReadDir(hooksPath)`: `listing` is the raw OS directory-read
result — an error, or the entries in the order the OS reported them.
On success ReadDir returns the entries sorted by filename. -/
def ioutilReadDir (listing : Except String (List FileInfo)) :
    Except String (List FileInfo) :=
  match listing with
  | Except.error err => Except.error err
  | Except.ok files => Except.ok (sortByName files)

/-- `findHooks` from oci.go.  `listing` is the raw result of the OS
directory read underneath `ioutil.ReadDir(hooksPath)`; findHooks sees
it through ReadDir, so sorted by filename.  Returns the hooks found and
the events reported to the sink. -/
def findHooks (guestHookPath hookType : String)
    (listing : Except String (List FileInfo)) :
    List Hook × List LogEvent :=
  let hooksPath := pathJoin guestHookPath hookType
  match ioutilReadDir listing with
  | Except.error err => ([], [LogEvent.skipHookType hookType err])
  | Except.ok files =>
    let r := files.foldl (hookStep hooksPath hookType) ([], [])
    (r.1, r.2 ++ [LogEvent.addedCount hookType r.1.length])

/-- The `findHooks` loop appends, in listing order, exactly one hook per
entry the validator accepts. -/
theorem foldl_hookStep_fst (hooksPath hookType : String) (files : List FileInfo) :
    ∀ acc : List Hook × List LogEvent,
      (files.foldl (hookStep hooksPath hookType) acc).1 =
        acc.1 ++ (files.filter (fun f => (isValidHook f).1)).map
          (fun f => { path := pathJoin hooksPath f.name,
                      args := [f.name, hookType] }) := by
  induction files with
  | nil => intro acc; simp
  | cons f fs ih =>
    intro acc
    by_cases h : (isValidHook f).1 = true
    · simp [List.foldl_cons, List.filter_cons, h, ih, hookStep]
    · simp [List.foldl_cons, List.filter_cons, h, ih, hookStep]

/-- Counterexample to C3 as stated: on a raw OS listing that reports
"b" before "a" (two accepted hooks), the descriptors do not come out in
the raw listing order — ioutil.ReadDir has sorted the entries by
filename first. -/
theorem findHooks_raw_order_counterexample :
    ¬ ((findHooks "/hooks" "prestart" (Except.ok
        [⟨"b", false, false, 0o755⟩, ⟨"a", false, false, 0o755⟩])).1 =
      [{ path := pathJoin (pathJoin "/hooks" "prestart") "b",
         args := ["b", "prestart"] },
       { path := pathJoin (pathJoin "/hooks" "prestart") "a",
         args := ["a", "prestart"] }]) := by
  decide

/-- C3 (amended): for every hook root, hook type and raw OS listing,
`findHooks` emits descriptors for exactly the entries the validator
accepts, in the by-filename sorted order ioutil.ReadDir returns (the
result is the sorted listing filtered then mapped): the loop itself
applies no reordering beyond ReadDir's sort by filename. -/
theorem findHooks_sorted_listing_order (guestHookPath hookType : String)
    (files : List FileInfo) :
    (findHooks guestHookPath hookType (Except.ok files)).1 =
      ((sortByName files).filter (fun f => (isValidHook f).1)).map
        (fun f => { path := pathJoin (pathJoin guestHookPath hookType) f.name,
                    args := [f.name, hookType] }) := by
  simp [findHooks, ioutilReadDir, foldl_hookStep_fst]

/-- C8: when the directory listing fails, `findHooks` returns no hooks
and reports exactly one listing-failure event; its return type carries
no error, so nothing propagates to the caller. -/
theorem findHooks_listing_failure (guestHookPath hookType err : String) :
    findHooks guestHookPath hookType (Except.error err) =
      ([], [LogEvent.skipHookType hookType err]) := rfl

/-- C4: `isValidHook` rejects a directory as "is a directory", a
non-directory symlink as "is a symbolic link", a non-directory
non-symlink with no execute bit in owner, group or other as
"is not executable", and accepts every other entry. -/
theorem isValidHook_classification (f : FileInfo) :
    (f.isDir = true → isValidHook f = (false, some "is a directory")) ∧
    (f.isDir = false → f.isSymlink = true →
      isValidHook f = (false, some "is a symbolic link")) ∧
    (f.isDir = false → f.isSymlink = false → f.perm &&& 0o111 = 0 →
      isValidHook f = (false, some "is not executable")) ∧
    (f.isDir = false → f.isSymlink = false → f.perm &&& 0o111 ≠ 0 →
      isValidHook f = (true, none)) := by
  refine ⟨fun h1 => ?_, fun h1 h2 => ?_, fun h1 h2 h3 => ?_, fun h1 h2 h3 => ?_⟩ <;>
    simp [isValidHook, *]

/-- Witness for C4: a directory, a symlink, a non-executable regular
file and an executable regular file each get the stated verdict. -/
theorem isValidHook_classification_witness :
    isValidHook ⟨"b", true, false, 0o755⟩ = (false, some "is a directory") ∧
    isValidHook ⟨"c", false, true, 0o755⟩ = (false, some "is a symbolic link") ∧
    isValidHook ⟨"d", false, false, 0o644⟩ = (false, some "is not executable") ∧
    isValidHook ⟨"a", false, false, 0o755⟩ = (true, none) :=
  ⟨(isValidHook_classification _).1 rfl,
   (isValidHook_classification _).2.1 rfl rfl,
   (isValidHook_classification _).2.2.1 rfl rfl (by decide),
   (isValidHook_classification _).2.2.2 rfl rfl (by decide)⟩

/-- C10: the directory check comes first and the symlink check comes
before the executable check: a directory is rejected as
"is a directory" whatever its other metadata, and a non-directory that
is both a symlink and non-executable is rejected as
"is a symbolic link", not "is not executable". -/
theorem isValidHook_reject_precedence (f : FileInfo) :
    (f.isDir = true → isValidHook f = (false, some "is a directory")) ∧
    (f.isDir = false → f.isSymlink = true → f.perm &&& 0o111 = 0 →
      isValidHook f = (false, some "is a symbolic link")) := by
  refine ⟨fun h1 => ?_, fun h1 h2 h3 => ?_⟩ <;> simp [isValidHook, *]

/-- Witness for C10: a non-executable directory yields "is a directory";
a non-executable symlink yields "is a symbolic link". -/
theorem isValidHook_reject_precedence_witness :
    isValidHook ⟨"p", true, false, 0o644⟩ = (false, some "is a directory") ∧
    isValidHook ⟨"q", false, true, 0o644⟩ = (false, some "is a symbolic link") :=
  ⟨(isValidHook_reject_precedence _).1 rfl,
   (isValidHook_reject_precedence _).2 rfl rfl (by decide)⟩

/-- C5: on a listing with one executable regular file `a`, one directory
`b`, one symlink `c` and one non-executable regular file `d`,
`findHooks root "prestart"` returns exactly one descriptor, for `a`,
with path `root/prestart/a` and args `["a", "prestart"]`. -/
theorem findHooks_prestart_example (root : String) :
    (findHooks root "prestart" (Except.ok
      [⟨"a", false, false, 0o755⟩, ⟨"b", true, false, 0o755⟩,
       ⟨"c", false, true, 0o755⟩, ⟨"d", false, false, 0o644⟩])).1 =
      [{ path := pathJoin (pathJoin root "prestart") "a",
         args := ["a", "prestart"] }] := rfl

/-- C7: `changeToBundlePath` returns the pre-call working directory in
every outcome: nil spec, nil root, empty root path, missing persisted
config, chdir failure, and success. -/
theorem changeToBundlePath_returns_cwd (spec : Option Spec)
    (containerId : String) (fs : FS) :
    (changeToBundlePath spec containerId fs).ret = fs.cwd := by
  rcases spec with _ | ⟨_ | root⟩
  · rfl
  · rfl
  · simp only [changeToBundlePath]
    split
    · rfl
    · split
      · split <;> rfl
      · rfl

/-- C6: a nil spec, a nil `Root`, or an empty `Root.Path` makes
`changeToBundlePath` return "invalid OCI spec" with the filesystem (and
so the working directory) unchanged, for every filesystem state —
whether or not a config.json is persisted for the id. -/
theorem changeToBundlePath_invalid_spec (spec : Option Spec)
    (containerId : String) (fs : FS)
    (h : spec = none ∨ (∃ s, spec = some s ∧ s.root = none) ∨
         (∃ s root, spec = some s ∧ s.root = some root ∧ root.path = "")) :
    changeToBundlePath spec containerId fs =
      ⟨fs.cwd, some "invalid OCI spec", fs⟩ := by
  rcases h with rfl | ⟨s, rfl, hr⟩ | ⟨s, root, rfl, hr, hp⟩
  · rfl
  · simp [changeToBundlePath, hr]
  · simp [changeToBundlePath, hr, hp]

/-- A filesystem state in which a config.json has been persisted for
container id "c1". -/
def fsWithConfig : FS :=
  ⟨["/run/libcontainer/c1"], [(canonicalConfigPath "c1", "persisted")], "/agent"⟩

/-- Witness for C6: a nil spec is rejected as "invalid OCI spec" even on
a filesystem where the config for the id is persisted. -/
theorem changeToBundlePath_invalid_spec_witness :
    changeToBundlePath none "c1" fsWithConfig =
      ⟨fsWithConfig.cwd, some "invalid OCI spec", fsWithConfig⟩ :=
  changeToBundlePath_invalid_spec none "c1" fsWithConfig (Or.inl rfl)

/-- C1: with a shape-valid spec but no persisted config.json for the
container id, `changeToBundlePath` returns "invalid OCI bundle" with the
filesystem (and so the working directory) unchanged. -/
theorem changeToBundlePath_missing_config (s : Spec) (root : Root)
    (containerId : String) (fs : FS)
    (hr : s.root = some root) (hp : root.path ≠ "")
    (hconf : fs.statExists (canonicalConfigPath containerId) = false) :
    changeToBundlePath (some s) containerId fs =
      ⟨fs.cwd, some "invalid OCI bundle", fs⟩ := by
  have hconf2 : fs.statExists
      (pathJoin (pathJoin ociConfigBasePath containerId) ociConfigFile) = false := hconf
  simp [changeToBundlePath, hr, hp, hconf2]

/-- Witness for C1: a valid spec against an empty filesystem yields
"invalid OCI bundle" and the cwd "/agent" unchanged. -/
theorem changeToBundlePath_missing_config_witness :
    changeToBundlePath (some ⟨some ⟨"/ctr/rootfs"⟩⟩) "c1" ⟨[], [], "/agent"⟩ =
      ⟨"/agent", some "invalid OCI bundle", ⟨[], [], "/agent"⟩⟩ :=
  changeToBundlePath_missing_config ⟨some ⟨"/ctr/rootfs"⟩⟩ ⟨"/ctr/rootfs"⟩
    "c1" ⟨[], [], "/agent"⟩ rfl (by decide) rfl

/-- C9: immediately after `writeSpecToFile` for a container id, the
canonical config path for that id exists. -/
theorem writeSpecToFile_establishes_config (encode : Option Spec → String)
    (spec : Option Spec) (containerId : String) (fs : FS) :
    (writeSpecToFile encode spec containerId fs).statExists
      (canonicalConfigPath containerId) = true := by
  simp [writeSpecToFile, FS.setFile, FS.statExists, FS.mkdirAll,
    FS.lookupFile, canonicalConfigPath]

/-- C2 (amended): `writeSpecToFile` stores, at the canonical config
path, the new encoding written from offset 0 over the prior content
without truncation — the new encoding followed by any prior bytes beyond
its length. -/
theorem writeSpecToFile_overlay_content (encode : Option Spec → String)
    (spec : Option Spec) (containerId : String) (fs : FS) :
    (writeSpecToFile encode spec containerId fs).lookupFile
        (canonicalConfigPath containerId) =
      some (writeAt0 (encode spec)
        ((fs.lookupFile (canonicalConfigPath containerId)).getD "")) := by
  simp [writeSpecToFile, FS.setFile, FS.lookupFile, FS.mkdirAll,
    canonicalConfigPath]

/-- A sample structured-encoding capability whose output length varies
with the spec, as the JSON encoding's does. -/
def sampleEncode : Option Spec → String
  | none => "null"
  | some ⟨none⟩ => "no root"
  | some ⟨some root⟩ => "root " ++ root.path

/-- A spec whose sample encoding is long. -/
def specLong : Option Spec := some ⟨some ⟨"/containers/alpha/rootfs"⟩⟩

/-- A spec whose sample encoding is short. -/
def specShort : Option Spec := some ⟨some ⟨"/r"⟩⟩

/-- An initial filesystem state. -/
def fsInit : FS := ⟨["/"], [], "/"⟩

set_option maxRecDepth 4000 in
/-- Counterexample to C2 as stated: persisting a spec with a shorter
encoding after one with a longer encoding leaves the tail of the prior
content in the file, so the content differs from the most recent
encoding (the open uses O_WRONLY|O_CREATE without O_TRUNC). -/
theorem writeSpecToFile_overwrite_counterexample :
    ¬ ((writeSpecToFile sampleEncode specShort "c1"
        (writeSpecToFile sampleEncode specLong "c1" fsInit)).lookupFile
          (canonicalConfigPath "c1") = some (sampleEncode specShort)) := by
  decide

end KataAgent
